import Mathlib

/-!
Verification development for the PhiFlow repository.

This file gives a shallow embedding of the extrapolation subsystem
(src/phi/math/_extrapolation.py), the geometry embedding utilities
(src/phi/geom/_transform.py) and parts of the mesh subsystem
(src/phi/geom/_mesh.py), together with theorems settling the frozen
claims about them.  Machine floats are modelled by rationals, tensors
by (nested) lists, fallible Python code by `Except`.
-/

namespace PhiFlow

/-- Error kinds raised by the embedded Python code. -/
inductive PyErr where
  | valueError
  | typeError
  | keyError
  | assertionError
  | attributeError (attr : String)
  | notImplementedError
  | zeroDivisionError
  deriving Repr, DecidableEq

/-- Simple (non-mixed) extrapolation variants of src/phi/math/_extrapolation.py:
`ConstantExtrapolation(value)` plus the four `_CopyExtrapolation` subclasses.
The constant's tensor value is modelled by a single rational. -/
inductive SimpleExt where
  | const (value : ℚ)
  | periodic
  | boundary
  | symmetric
  | reflect
  deriving Repr, DecidableEq

/-- Source `pad_rank`: `ConstantExtrapolation.__init__` passes 5; the module-level
singletons are created with periodic=1, boundary=2, symmetric=3, reflect=4
(src lines 99, 420-423). -/
def SimpleExt.padRank : SimpleExt → Nat
  | .const _ => 5
  | .periodic => 1
  | .boundary => 2
  | .symmetric => 3
  | .reflect => 4

/-- Source `__eq__`: `ConstantExtrapolation.__eq__` compares values with
`math.close` (exact equality in the rational model); `_CopyExtrapolation.__eq__`
compares the runtime type. -/
def SimpleExt.extEq : SimpleExt → SimpleExt → Bool
  | .const v, .const w => v == w
  | .periodic, .periodic => true
  | .boundary, .boundary => true
  | .symmetric, .symmetric => true
  | .reflect, .reflect => true
  | _, _ => false

/-- Source `is_zero`: equality with `ZERO = ConstantExtrapolation(0)`. -/
def SimpleExt.isZero (e : SimpleExt) : Bool := e.extEq (.const 0)

/-- Source `is_one`: equality with `ONE = ConstantExtrapolation(1)`. -/
def SimpleExt.isOne (e : SimpleExt) : Bool := e.extEq (.const 1)

/-- Whether the extrapolation is a `_CopyExtrapolation` subclass. -/
def SimpleExt.isCopy : SimpleExt → Bool
  | .const _ => false
  | _ => true

/-- Per-axis map of a `MixedExtrapolation` (src lines 426-436): axis name to
(lower, upper) pair.  The source also allows nesting mixed extrapolations as
members; the claims only involve simple members, which is what is modelled. -/
abbrev MixedExt : Type := List (String × (SimpleExt × SimpleExt))

/-- An extrapolation value: simple or mixed. -/
inductive Extrap where
  | simple (e : SimpleExt)
  | mixedE (m : MixedExt)

/-- Serialized extrapolation record: the `type` tag, the optional `value` entry
(present for constants) and the `axes` entry (present for mixed). -/
inductive ExtDict where
  | mk (etype : String) (value : Option ℚ) (axes : List (String × (ExtDict × ExtDict)))

/-- Source `to_dict` of the simple variants: `ConstantExtrapolation.to_dict`
returns `{'type': 'constant', 'value': ...}` (line 106);
`_CopyExtrapolation.to_dict` returns `{'type': repr(self)}` (line 245). -/
def SimpleExt.toDict : SimpleExt → ExtDict
  | .const v => .mk "constant" (some v) []
  | .periodic => .mk "periodic" none []
  | .boundary => .mk "boundary" none []
  | .symmetric => .mk "symmetric" none []
  | .reflect => .mk "reflect" none []

/-- Source `MixedExtrapolation.to_dict` (lines 438-442):
`{'type': 'mixed', 'axes': {ax: (lower.to_dict(), upper.to_dict())}}`. -/
def mixedToDict (m : MixedExt) : ExtDict :=
  .mk "mixed" none (m.map (fun p => (p.1, (p.2.1.toDict, p.2.2.toDict))))

/-- Dictionary serialization of any extrapolation value. -/
def Extrap.toDict : Extrap → ExtDict
  | .simple e => e.toDict
  | .mixedE m => mixedToDict m

/-- Source free function `from_dict` (lines 505-518).  It dispatches on the
`type` tag for `constant`, `periodic`, `boundary`, `symmetric` and `reflect`
and raises `ValueError(dictionary)` for every other tag — including `mixed`,
for which no branch exists in the source. -/
def fromDict : ExtDict → Except PyErr Extrap
  | .mk etype value _axes =>
    if etype = "constant" then
      match value with
      | some v => .ok (.simple (.const v))
      | none => .error .keyError
    else if etype = "periodic" then .ok (.simple .periodic)
    else if etype = "boundary" then .ok (.simple .boundary)
    else if etype = "symmetric" then .ok (.simple .symmetric)
    else if etype = "reflect" then .ok (.simple .reflect)
    else .error .valueError

/-- Python `==` on extrapolation values as the source defines it:
`ConstantExtrapolation.__eq__` and `_CopyExtrapolation.__eq__` are defined;
`MixedExtrapolation` defines no `__eq__`, so distinct mixed objects compare
unequal (object identity). -/
def Extrap.pyEq : Extrap → Extrap → Bool
  | .simple a, .simple b => a.extEq b
  | _, _ => false

/-- Source `gradient()` of the simple variants:
`ConstantExtrapolation.gradient` returns `ZERO` (lines 108-109);
`_BoundaryExtrapolation.gradient` returns `ZERO` (lines 326-327);
`_PeriodicExtrapolation.gradient` returns `self` (lines 348-349);
`_SymmetricExtrapolation.gradient` and `_ReflectExtrapolation.gradient`
return `-self` (lines 375-376, 407-408).  No `__neg__` (or `__pos__`) is
defined on `Extrapolation` or any subclass anywhere in the repository, so
evaluating `-self` raises `TypeError: bad operand type for unary -`. -/
def SimpleExt.gradient : SimpleExt → Except PyErr SimpleExt
  | .const _ => .ok (.const 0)
  | .periodic => .ok .periodic
  | .boundary => .ok (.const 0)
  | .symmetric => .error .typeError
  | .reflect => .error .typeError

/-- Source binary operators on simple extrapolations.  `ConstantExtrapolation`
(lines 177-235) combines two constants value-wise, short-circuits the additive
or multiplicative identity where the source does, and raises
`IncompatibleExtrapolations` (a `ValueError`) otherwise.
`_CopyExtrapolation._op` (lines 290-297) returns `self` when the other operand
has the same type, delegates to the other operand's matching constant operator
when the other operand is a non-copy extrapolation, and raises otherwise.
Python evaluates `a + b` as `a.__add__(b)`; these methods raise instead of
returning `NotImplemented`, so no reflected fallback is ever consulted. -/
def SimpleExt.add : SimpleExt → SimpleExt → Except PyErr SimpleExt
  | .const v, .const w => .ok (.const (v + w))
  | .const v, other => if (SimpleExt.const v).isZero then .ok other else .error .valueError
  | s, .const w =>
    -- _op delegates to ConstantExtrapolation.__add__(other, self)
    if (SimpleExt.const w).isZero then .ok s else .error .valueError
  | s, other => if s.extEq other then .ok s else .error .valueError

/-- Source `__sub__`: `ConstantExtrapolation.__sub__` (lines 185-189) has no
zero shortcut; `_CopyExtrapolation.__sub__` delegates to the other operand's
`__rsub__` (lines 191-197, 305-306). -/
def SimpleExt.sub : SimpleExt → SimpleExt → Except PyErr SimpleExt
  | .const v, .const w => .ok (.const (v - w))
  | .const _, _ => .error .valueError
  | s, .const w =>
    -- ConstantExtrapolation.__rsub__(const w, s): self.is_zero() shortcut
    if (SimpleExt.const w).isZero then .ok s else .error .valueError
  | s, other => if s.extEq other then .ok s else .error .valueError

/-- Source `__mul__` (lines 199-207, 302-303). -/
def SimpleExt.mul : SimpleExt → SimpleExt → Except PyErr SimpleExt
  | .const v, .const w => .ok (.const (v * w))
  | .const v, other =>
    if (SimpleExt.const v).isOne then .ok other
    else if (SimpleExt.const v).isZero then .ok (.const v)
    else .error .valueError
  | s, .const w =>
    -- ConstantExtrapolation.__mul__(const w, s)
    if (SimpleExt.const w).isOne then .ok s
    else if (SimpleExt.const w).isZero then .ok (.const w)
    else .error .valueError
  | s, other => if s.extEq other then .ok s else .error .valueError

/-- Source `__truediv__` (lines 209-223, 308-309).  Division of two constant
tensor values is modelled by rational division (the backend produces inf/nan
rather than raising on a zero divisor; no claim exercises that case). -/
def SimpleExt.div : SimpleExt → SimpleExt → Except PyErr SimpleExt
  | .const v, .const w => .ok (.const (v / w))
  | .const v, _ => if (SimpleExt.const v).isZero then .ok (.const v) else .error .valueError
  | s, .const w =>
    -- ConstantExtrapolation.__rtruediv__(const w, s): self.is_one() shortcut
    if (SimpleExt.const w).isOne then .ok s else .error .valueError
  | s, other => if s.extEq other then .ok s else .error .valueError

/-- Python floored modulo `a % b` for a positive modulus (`Int.fmod` rounds
the quotient toward negative infinity, as Python does); a zero modulus raises
`ZeroDivisionError` in Python and is reported as an error. -/
def pyMod (a b : ℤ) : Except PyErr ℤ :=
  if b = 0 then .error .zeroDivisionError else .ok (Int.fmod a b)

/-- Source `transform_coordinates` of each simple variant, per spatial axis of
size `size`, applied to one integer coordinate:
default clip to `[0, size-1]` (line 83, used by constant and boundary);
periodic `coordinates % shape.spatial` (line 352);
symmetric fold (lines 378-380); reflect fold (lines 413-415).
Python `//` on the non-negative numerator is floor division. -/
def SimpleExt.transformCoord (e : SimpleExt) (c : ℤ) (size : ℤ) : Except PyErr ℤ :=
  match e with
  | .periodic => pyMod c size
  | .symmetric => do
    let c1 ← pyMod c (2 * size)
    pure (Int.fdiv ((2 * size - 1) - |(2 * size - 1) - 2 * c1|) 2)
  | .reflect => do
    let c1 ← pyMod c (2 * size - 2)
    pure ((size - 1) - |(size - 1) - c1|)
  | _ => .ok (min (max c 0) (size - 1))

/-- Dictionary lookup in a mixed extrapolation's per-axis map (`self.ext[ax]`). -/
def MixedExt.lookup (m : MixedExt) (ax : String) : Option (SimpleExt × SimpleExt) :=
  (List.find? (fun p => p.1 == ax) m).map (fun p => p.2)

/-- Axis names of a mixed extrapolation's per-axis map (`self.ext.keys()`). -/
def MixedExt.keys (m : MixedExt) : List String := m.map (fun p => p.1)

/-- Sequential effectful map, mirroring a Python loop that appends one result
per element and propagates the first raised exception. -/
def mapME (f : α → Except PyErr β) : List α → Except PyErr (List β)
  | [] => .ok []
  | a :: l =>
    match f a with
    | .error e => .error e
    | .ok b =>
      match mapME f l with
      | .error e => .error e
      | .ok bs => .ok (b :: bs)

/-- Per-axis body of `MixedExtrapolation.transform_coordinates`
(src lines 474-481): if the lower and upper policies are equal, delegate
directly; otherwise compute both transforms and select by the sign of the
coordinate (`coordinate <= 0` picks the lower policy's result). -/
def axisTransform (pair : SimpleExt × SimpleExt) (c : ℤ) (size : ℤ) : Except PyErr ℤ :=
  if pair.1.extEq pair.2 then pair.1.transformCoord c size
  else do
    let lower ← pair.1.transformCoord c size
    let upper ← pair.2.transformCoord c size
    pure (if c ≤ 0 then lower else upper)

/-- Source `MixedExtrapolation.transform_coordinates` (lines 470-482).
The coordinates tensor is unstacked along its component axis into one integer
coordinate per spatial dimension (`coords`); `dims` lists the spatial
dimensions of the queried shape with their sizes.  The source first executes
`assert len(self.ext) == len(shape) == len(coordinates)` and then looks up
`self.ext[dim.name]` for every spatial dimension, which raises `KeyError`
when a dimension name is not covered by the per-axis map. -/
def mixedTransformCoordinates (m : MixedExt) (dims : List (String × ℤ))
    (coords : List ℤ) : Except PyErr (List ℤ) :=
  if m.length = dims.length ∧ dims.length = coords.length then
    mapME (fun p =>
      match m.lookup p.1.1 with
      | none => .error .keyError
      | some pair => axisTransform pair p.2 p.1.2) (dims.zip coords)
  else .error .assertionError

/-- Lower padding block of one axis, as a list prefix.
Modelled from the spec: the native padding primitive `native_math.pad`
(invoked by `ConstantExtrapolation.pad` and `_CopyExtrapolation.pad` with the
mode keyed by the policy, src lines 118-123 and 248-253) lives in the backend
package, which is not part of the four source files; its per-mode semantics
follow the spec's `pad_values` description: constant fills with the constant
value, boundary copies the nearest edge entry, periodic copies from the
opposite edge, symmetric mirrors including the edge entry, reflect mirrors
excluding it.  `constElem` is the constant filler for this axis (a constant
row when padding the outer axis). -/
def padBlockLower (e : SimpleExt) (w : Nat) (v : List α) (constElem : α) : List α :=
  match e with
  | .const _ => List.replicate w constElem
  | .boundary => List.replicate w (v.headD constElem)
  | .periodic => v.drop (v.length - w)
  | .symmetric => (v.take w).reverse
  | .reflect => ((v.drop 1).take w).reverse

/-- Upper padding block of one axis, as a list suffix.
Modelled from the spec: see `padBlockLower`. -/
def padBlockUpper (e : SimpleExt) (w : Nat) (v : List α) (constElem : α) : List α :=
  match e with
  | .const _ => List.replicate w constElem
  | .boundary => List.replicate w (v.getLastD constElem)
  | .periodic => v.take w
  | .symmetric => (v.drop (v.length - w)).reverse
  | .reflect => ((v.take (v.length - 1)).drop (v.length - 1 - w)).reverse

/-- One axis of a single-policy pad: `[lower_block, original, upper_block]`. -/
def padAxis (e : SimpleExt) (w : Nat × Nat) (v : List α) (constElem : α) : List α :=
  padBlockLower e w.1 v constElem ++ v ++ padBlockUpper e w.2 v constElem

/-- A two-axis tensor: the outer list is axis "x", the inner lists axis "y". -/
abbrev Mat : Type := List (List ℚ)

/-- Width lookup `value.shape.order(widths, default=(0, 0))` for one axis. -/
def widthFor (widths : List (String × (Nat × Nat))) (ax : String) : Nat × Nat :=
  ((List.find? (fun p => p.1 == ax) widths).map (fun p => p.2)).getD (0, 0)

/-- Constant filler value of a policy (only used by the constant mode). -/
def SimpleExt.constVal : SimpleExt → ℚ
  | .const c => c
  | _ => 0

/-- Single-policy `pad` of a two-axis tensor (src `ConstantExtrapolation.pad`
lines 111-123 and `_CopyExtrapolation.pad` lines 247-253, NativeTensor case):
widths for every tensor axis are collected with default `(0, 0)` and the
native primitive pads the axes in shape order (axis "x", then axis "y"). -/
def simplePad2 (e : SimpleExt) (widths : List (String × (Nat × Nat))) (m : Mat) : Mat :=
  let ncols := (m.headD []).length
  let m1 := padAxis e (widthFor widths "x") m (List.replicate ncols e.constVal)
  m1.map (fun row => padAxis e (widthFor widths "y") row e.constVal)

/-- All lower/upper member policies of a mixed extrapolation in per-axis map
order: `sum(self.ext.values(), ())` (src line 458). -/
def MixedExt.members (m : MixedExt) : List SimpleExt :=
  m.foldr (fun p acc => p.2.1 :: p.2.2 :: acc) []

/-- Deduplication keeping first occurrences (each later `__eq__`-duplicate is
filtered out), modelling the `set(...)` construction on extrapolation values
(equality per `__eq__`); a Python set's iteration order is unspecified, but
the subsequent sort by `pad_rank` makes the order canonical whenever the
distinct members have distinct ranks, as in every claim. -/
def dedupExt : List SimpleExt → List SimpleExt
  | [] => []
  | a :: l => a :: (dedupExt l).filter (fun b => !(a.extEq b))

/-- Insertion into a list sorted by ascending `pad_rank`. -/
def insertByRank (a : SimpleExt) : List SimpleExt → List SimpleExt
  | [] => [a]
  | b :: l => if a.padRank ≤ b.padRank then a :: b :: l else b :: insertByRank a l

/-- Sorting by ascending `pad_rank`: `sorted(extrapolations, key=lambda e:
e.pad_rank)` (src line 459).  Insertion sort is stable; Python's `sorted` is
stable as well, though the preceding `set` makes the order of equal-rank
entries (two distinct constants) unspecified in the source. -/
def sortByRank : List SimpleExt → List SimpleExt
  | [] => []
  | a :: l => insertByRank a (sortByRank l)

/-- The sequence of distinct member policies that `MixedExtrapolation.pad`
applies, in ascending `pad_rank` order (src lines 458-459). -/
def MixedExt.policySeq (m : MixedExt) : List SimpleExt :=
  sortByRank (dedupExt m.members)

/-- Per-policy width masking of `MixedExtrapolation.pad` (src lines 461-462):
for each axis the lower (upper) width is kept only when that exact policy
occupies the lower (upper) side of the axis, and zeroed otherwise.  The source
indexes `self.ext[ax]`, raising `KeyError` for a width axis absent from the
per-axis map; the claims quantify over widths on the map's own axes, so a
default that is never consulted under that precondition is used here. -/
def extWidths (m : MixedExt) (e : SimpleExt) (widths : List (String × (Nat × Nat))) :
    List (String × (Nat × Nat)) :=
  widths.map (fun p =>
    let pair := (m.lookup p.1).getD (.const 0, .const 0)
    (p.1, ((if pair.1.extEq e then p.2.1 else 0), (if pair.2.extEq e then p.2.2 else 0))))

/-- Source `MixedExtrapolation.pad` (lines 451-464): the distinct member
policies, sorted by ascending `pad_rank`, are applied one after another, each
with all widths zeroed except on the axis/side slots that the policy occupies. -/
def mixedPad (m : MixedExt) (widths : List (String × (Nat × Nat))) (v : Mat) : Mat :=
  (m.policySeq).foldl (fun acc e => simplePad2 e (extWidths m e widths) acc) v

/-! Obstacle carving in `build_mesh` / `build_quadrilaterals`
(src/phi/geom/_mesh.py lines 758-884). -/

/-- Minimum over a list of per-axis cell sizes (`min(dx, channel)`,
src line 802). -/
def minList (l : List ℚ) : ℚ := l.foldr min (l.headD 0)

/-- The blocking margin passed to `build_quadrilaterals`:
`regular_size * max_squish` where `regular_size = min(dx, channel)`
(src lines 801-803); `max_squish` defaults to 0.5 (line 764). -/
def buildMeshMinSize (dx : List ℚ) (maxSquish : ℚ) : ℚ := minList dx * maxSquish

/-- Vertex activity test of `build_quadrilaterals` (src line 838):
`active_mask_vert = obstacle.approximate_signed_distance(vert_pos) > min_size`,
evaluated at one grid vertex whose signed distance is `sd`. -/
def activeMaskVert (sd minSize : ℚ) : Bool := decide (sd > minSize)

/-- Obstacle-occupancy test of one cell (src line 839):
`obs_mask_cell = convolve(active_mask_vert, expand(1, resolution.with_sizes(2))) == 0`.
The same-size convolution with a 2×2 kernel of ones sums the four corner
activity flags of cell `(i, j)` over the vertex grid `sdg` of signed
distances; the cell is marked occupied exactly when that sum is zero. -/
def obsMaskCell (sdg : List (List ℚ)) (minSize : ℚ) (i j : Nat) : Bool :=
  let sd : Nat → Nat → ℚ := fun a b => (sdg.getD a []).getD b 0
  (activeMaskVert (sd i j) minSize).toNat
    + (activeMaskVert (sd i (j + 1)) minSize).toNat
    + (activeMaskVert (sd (i + 1) j) minSize).toNat
    + (activeMaskVert (sd (i + 1) (j + 1)) minSize).toNat == 0

/-- The claim's reading of the vertex/cell predicates, stated from the claim's
words for comparison with `obsMaskCell`: a vertex is blocked when the signed
distance exceeds `min_size`, and a cell is occupied when all of its four
corner vertices are blocked. -/
def claimOccupiedCell (sdg : List (List ℚ)) (minSize : ℚ) (i j : Nat) : Bool :=
  let sd : Nat → Nat → ℚ := fun a b => (sdg.getD a []).getD b 0
  decide (sd i j > minSize) && decide (sd i (j + 1) > minSize)
    && decide (sd (i + 1) j > minSize) && decide (sd (i + 1) (j + 1) > minSize)

/-! Geometry embedding utilities (src/phi/geom/_transform.py). -/

/-- A query location: named vector components (`location.vector` item names
with their coordinate values). -/
abbrev Loc : Type := List (String × ℚ)

/-- Component lookup by axis name in a location. -/
def locGet (loc : Loc) (ax : String) : Option ℚ :=
  (List.find? (fun p => p.1 == ax) loc).map (fun p => p.2)

/-- Axis names of a location. -/
def locNames (loc : Loc) : List String := loc.map (fun p => p.1)

/-- A base geometry's capability surface as consumed by `_EmbeddedGeometry`:
its vector item names and its containment / signed-distance queries, both
name-based on locations. -/
structure GeomCap where
  axes : List String
  liesInsideFn : Loc → Bool
  signedDistanceFn : Loc → ℚ

/-- A box-like primitive in corner representation.
Modelled from the spec: `Box` and `BaseBox` live outside the four source
files; per the spec, a box stores optional per-axis bounds (`None` meaning
unbounded), a point lies inside when every bounded axis interval contains its
component, and the product of two boxes concatenates their axes. -/
abbrev BoxSpec : Type := List (String × Option (ℚ × ℚ))

/-- Axis names of a box. -/
def boxAxes (b : BoxSpec) : List String := b.map (fun p => p.1)

/-- Containment test of a box (an unbounded axis always passes; a component
missing from the query is treated as at the origin, a case no claim reaches). -/
def boxLiesInside (b : BoxSpec) (loc : Loc) : Bool :=
  b.all (fun p =>
    match p.2 with
    | none => true
    | some bounds => decide (bounds.1 ≤ (locGet loc p.1).getD 0)
        && decide ((locGet loc p.1).getD 0 ≤ bounds.2))

/-- The unbounded box over the given axes: `Box(**{dim: None for dim in
embedded_axes})` (src/phi/geom/_transform.py line 106). -/
def unboundedBox (dims : List String) : BoxSpec := dims.map (fun d => (d, none))

/-- Source `_EmbeddedGeometry` (src/phi/geom/_transform.py lines 12-78): a base
geometry plus the ordered tuple of embedded spatial axis names. -/
structure EmbeddedGeometry where
  geometry : GeomCap
  axes : List String

/-- Source `_EmbeddedGeometry._down_project` (lines 39-45): start from the
location's vector item names, remove every embedded axis that the base
geometry does not know, and slice the location down to the remaining names.
The source removes one (first) occurrence per embedded axis; for locations
with distinct component names this equals filtering those names out. -/
def EmbeddedGeometry.downProject (e : EmbeddedGeometry) (loc : Loc) : Loc :=
  let removed := e.axes.filter (fun d => decide (d ∉ e.geometry.axes))
  let itemNames := (locNames loc).filter (fun n => decide (n ∉ removed))
  itemNames.map (fun n => (n, (locGet loc n).getD 0))

/-- Source `_EmbeddedGeometry.lies_inside` (lines 47-48): delegate to the base
geometry on the down-projected location. -/
def EmbeddedGeometry.liesInside (e : EmbeddedGeometry) (loc : Loc) : Bool :=
  e.geometry.liesInsideFn (e.downProject loc)

/-- Source `_EmbeddedGeometry.approximate_signed_distance` (lines 50-51). -/
def EmbeddedGeometry.signedDistance (e : EmbeddedGeometry) (loc : Loc) : ℚ :=
  e.geometry.signedDistanceFn (e.downProject loc)

/-- Geometry values that `embed` can receive or produce. -/
inductive GeomM where
  | boxG (b : BoxSpec)
  | emb (e : EmbeddedGeometry)
  | plain (g : GeomCap)

/-- Vector item names of a geometry value. -/
def GeomM.vectorNames : GeomM → List String
  | .boxG b => boxAxes b
  | .emb e => e.axes
  | .plain g => g.axes

/-- Containment query of a geometry value. -/
def GeomM.liesInside : GeomM → Loc → Bool
  | .boxG b, loc => boxLiesInside b loc
  | .emb e, loc => e.liesInside loc
  | .plain g, loc => g.liesInsideFn loc

/-- Source `embed(geometry, projected_dims)` (src/phi/geom/_transform.py lines
81-107) for a present `projected_dims`: compute the embedded axes (those not
already vector item names of the geometry); if none, return the geometry
unchanged; otherwise build the full axis tuple by prepending, for each
existing axis name taken in reverse, the name when it is not among
`projected_dims`.  A box-like geometry becomes the product of its corner
representation with an unbounded box over the new axes; any other geometry is
wrapped in `_EmbeddedGeometry`. -/
def embed (g : GeomM) (projectedDims : List String) : GeomM :=
  let names := g.vectorNames
  let embeddedAxes := projectedDims.filter (fun a => decide (a ∉ names))
  if embeddedAxes.isEmpty then g
  else
    let axes := (names.filter (fun n => decide (n ∉ projectedDims))) ++ projectedDims
    match g with
    | .boxG b => .boxG (b ++ unboundedBox embeddedAxes)
    | .emb e => .emb ⟨⟨e.axes, e.liesInside, e.signedDistance⟩, axes⟩
    | .plain gc => .emb ⟨gc, axes⟩

/-! Mesh record, slicing and triangle-mesh round trip
(src/phi/geom/_mesh.py). -/

/-- Attribute names available on the `Mesh` dataclass as defined in the
source: its nine fields (lines 58-75) and every property, cached property and
method defined in the class body.  The legacy underscore-cache attributes
(`_center`, `_volume`, `_normals`, `_vertex_normals`, `_vertex_connectivity`,
`_element_connectivity`, `_max_cell_walk`, `face_vertices`) that several
methods still reference appear nowhere in the class. -/
def meshAttributes : List String :=
  ["vertices", "elements", "element_rank", "boundaries", "periodic",
   "face_format", "max_cell_walk", "variable_attrs", "value_attrs",
   "shape", "cell_count", "center", "_vertex_mean", "face_centers",
   "face_areas", "face_normals", "_faces", "face_shape", "sets",
   "get_points", "get_boundary", "boundary_elements", "boundary_faces",
   "all_boundary_faces", "interior_faces", "pad_boundary",
   "cell_connectivity", "boundary_connectivity", "distance_matrix",
   "faces_to_vertices", "_cell_deltas", "relative_face_distance",
   "neighbor_offsets", "neighbor_distances", "faces", "connectivity",
   "element_connectivity", "vertex_connectivity", "vertex_graph",
   "filter_unused_vertices", "volume", "normals", "vertex_normals",
   "vertex_positions", "lies_inside", "approximate_signed_distance",
   "approximate_closest_surface", "cell_walk_towards", "sample_uniform",
   "bounding_radius", "bounding_half_extent", "bounding_box", "bounds",
   "at", "shifted", "rotated", "scaled"]

/-- Attribute reads that the body of `Mesh.scaled` (src lines 475-481)
performs on `self`, in evaluation order: `self.bounds` (line 476),
`self.vertices` (line 477), `self._center` (line 478), `self._volume`
(line 479), then the attributes of the constructor call on line 481. -/
def scaledAttrReads : List String :=
  ["bounds", "vertices", "_center", "_volume", "element_rank", "elements",
   "boundaries", "_normals", "face_centers", "face_normals", "face_vertices",
   "_vertex_normals", "_vertex_connectivity", "_element_connectivity",
   "_max_cell_walk"]

/-- Attribute resolution on a `Mesh` instance: a read of a name not among the
class attributes raises `AttributeError` (the dataclass is frozen and defines
no `__getattr__`). -/
def meshGetattr (attr : String) : Except PyErr Unit :=
  if meshAttributes.contains attr then .ok () else .error (.attributeError attr)

/-- Evaluation of `Mesh.scaled`'s attribute reads up to the first failure. -/
def scaledFirstFailure : Except PyErr Unit :=
  scaledAttrReads.foldl (fun acc a => acc >>= fun _ => meshGetattr a) (.ok ())

/-- Positional-parameter count of the `Mesh` constructor: `_MeshType.__call__`
(src lines 29-36) accepts `vertices, elements, element_rank, boundaries,
max_cell_walk, variables, values`. -/
def meshConstructorParamCount : Nat := 7

/-- Positional-argument count of the `Mesh(...)` call on the last line of
`Mesh.scaled` (src line 481). -/
def scaledConstructorArgCount : Nat := 15

/-- Data of a compact triangle mesh relevant to `save_tri_mesh` /
`load_tri_mesh`: dimension names, vertex coordinates (N×D) and the
per-element vertex index rows (M×K, compact representation). -/
structure TriMeshData where
  cellDimName : String
  vertexDimName : String
  axisNames : List String
  vertexCoords : List (List ℚ)
  faceIndices : List (List Nat)
  deriving Repr, DecidableEq

/-- Contents of the archive written by `save_tri_mesh` (src lines 910-918):
arrays `vertices` and `faces`, the strings `f_dim` and `vertex_dim`, the axis
name list `vector`, and the flag `has_extra_data`.  File I/O is modelled by
passing this record; the claims concern a mesh saved with no extra data. -/
structure TriMeshFileData where
  vertices : List (List ℚ)
  faces : List (List Nat)
  fDim : String
  vertexDim : String
  vector : List String
  hasExtraData : Bool
  deriving Repr, DecidableEq

/-- Source `save_tri_mesh` for a mesh with compact elements: the vertex
centers reshaped to (N, D), the compact index rows reshaped to (M, K), the
element and vertex instance dimension names and the vector item names. -/
def saveTriMesh (m : TriMeshData) : TriMeshFileData :=
  ⟨m.vertexCoords, m.faceIndices, m.cellDimName, m.vertexDimName, m.axisNames, false⟩

/-- Element-rank inference of the `mesh(...)` constructor (src lines 645-652):
2 ambient components give rank 2; 3 components give rank 2 when the minimum
vertex count per element is at most 4, else rank 3; any other component count
raises `ValueError`. -/
def inferElementRank (d : Nat) (minVertices : Nat) : Except PyErr Nat :=
  if d = 2 then .ok 2
  else if d = 3 then .ok (if minVertices ≤ 4 then 2 else 3)
  else .error .valueError

/-- Minimum vertex count over the element rows (`sum(elements, dual).min`). -/
def minVertexCount (faces : List (List Nat)) : Nat :=
  match faces with
  | [] => 0
  | r :: rs => rs.foldl (fun acc row => min acc row.length) r.length

/-- Source `load_tri_mesh` (src lines 921-934) followed by the `mesh(...)`
constructor (lines 613-660) on its dense vertex-list path: the loaded `faces`
array becomes a tensor over `(f_dim, vertex_list)`, the loaded `vertices`
array a tensor over `(vertex_dim, vector)`; `mesh` wraps the coordinates in a
`Point` geometry, renames the vertex-list dimension to the vertex dual
dimension and stores the index rows unchanged in a compact sparse tensor,
inferring `element_rank` from the component count.  The resulting mesh data
(with the inferred rank) is returned. -/
def loadTriMesh (f : TriMeshFileData) : Except PyErr (TriMeshData × Nat) := do
  let rank ← inferElementRank f.vector.length (minVertexCount f.faces)
  pure (⟨f.fDim, f.vertexDim, f.vector, f.vertices, f.faces⟩, rank)

/-- Dimension structure of a mesh as seen by `Mesh.__getitem__`: the element
instance dimension, the vertex-list spatial dimensions of `elements` (present
for dense integer vertex lists), the vertex instance dimension, and the dims
of the mesh's shape (element dimension, `vector`, batch dimensions). -/
structure MeshDims where
  cellDim : String
  vertexListDims : List String
  vertexDim : String
  dims : List String
  deriving Repr, DecidableEq

/-- Source `Mesh.__getitem__` (src lines 483-487): the slicing dict must not
address any vertex-list spatial dimension of `elements` nor the vertex
instance dimension (both assertions fail otherwise); the remaining slicing is
`getitem_dataclass(self, item, keepdims=[self.shape.instance.name, 'vector'])`.
Modelled from the spec: `getitem_dataclass` itself is part of the external
phiml layer; per the spec it slices the record along the addressed dimensions
while preserving every dimension listed in `keepdims`, so an addressed
dimension disappears from the shape unless kept. -/
def meshGetitem (m : MeshDims) (keys : List String) : Except PyErr MeshDims :=
  if ∃ d ∈ m.vertexListDims, d ∈ keys then .error .assertionError
  else if m.vertexDim ∈ keys then .error .assertionError
  else
    let kept := m.dims.filter
      (fun d => decide (d ∉ keys) || decide (d = m.cellDim) || decide (d = "vector"))
    .ok { m with dims := kept }

/-- Success test of an embedded computation. -/
def exOk : Except PyErr α → Bool
  | .ok _ => true
  | .error _ => false

/-! Theorems settling the claims. -/

/-- Claim C1: for every extrapolation of the named variants, `from_dict`
applied to `to_dict` returns an extrapolation equal (per `__eq__`) to the
original — this holds for constant, periodic, boundary, symmetric and
reflect (the round trip even returns a structurally identical value) — but
for a `MixedExtrapolation` the serialized record carries the tag `mixed`,
for which `from_dict` has no branch, so the round trip raises `ValueError`
instead of reconstructing the value. -/
theorem from_dict_to_dict_roundtrip_eval :
    (∀ v : ℚ, fromDict (Extrap.toDict (.simple (.const v))) = .ok (.simple (.const v)))
    ∧ fromDict (Extrap.toDict (.simple .periodic)) = .ok (.simple .periodic)
    ∧ fromDict (Extrap.toDict (.simple .boundary)) = .ok (.simple .boundary)
    ∧ fromDict (Extrap.toDict (.simple .symmetric)) = .ok (.simple .symmetric)
    ∧ fromDict (Extrap.toDict (.simple .reflect)) = .ok (.simple .reflect)
    ∧ (∀ v : ℚ, Extrap.pyEq (.simple (.const v)) (.simple (.const v)) = true)
    ∧ fromDict (Extrap.toDict (.mixedE [("x", (.periodic, .periodic))]))
        = .error .valueError := by
  refine ⟨fun v => rfl, rfl, rfl, rfl, rfl, fun v => ?_, rfl⟩
  simp [Extrap.pyEq, SimpleExt.extEq]

/-- Claim C2: the `gradient()` table.  Constant and boundary extrapolations
return `ZERO` and the periodic extrapolation returns itself, as claimed; but
for `SYMMETRIC` and `REFLECT` the source line `return -self` applies unary
negation to a class that defines no `__neg__`, so the call raises `TypeError`
instead of returning a negated-self policy marker (no such marker exists in
the code). -/
theorem gradient_table_eval :
    (∀ v : ℚ, SimpleExt.gradient (.const v) = .ok (.const 0))
    ∧ SimpleExt.gradient .periodic = .ok .periodic
    ∧ SimpleExt.gradient .boundary = .ok (.const 0)
    ∧ SimpleExt.gradient .symmetric = .error .typeError
    ∧ SimpleExt.gradient .reflect = .error .typeError :=
  ⟨fun _ => rfl, rfl, rfl, rfl, rfl⟩

/-- Claim C8: for every copy-style extrapolation `E` among periodic, boundary,
symmetric and reflect, and each of the four operators `+ - * /`, combining `E`
with another extrapolation of the same type yields that same policy
(`_CopyExtrapolation._op` returns `self` when the operand types match). -/
theorem copy_op_same_type_idempotent :
    (SimpleExt.add .periodic .periodic = .ok .periodic)
    ∧ (SimpleExt.sub .periodic .periodic = .ok .periodic)
    ∧ (SimpleExt.mul .periodic .periodic = .ok .periodic)
    ∧ (SimpleExt.div .periodic .periodic = .ok .periodic)
    ∧ (SimpleExt.add .boundary .boundary = .ok .boundary)
    ∧ (SimpleExt.sub .boundary .boundary = .ok .boundary)
    ∧ (SimpleExt.mul .boundary .boundary = .ok .boundary)
    ∧ (SimpleExt.div .boundary .boundary = .ok .boundary)
    ∧ (SimpleExt.add .symmetric .symmetric = .ok .symmetric)
    ∧ (SimpleExt.sub .symmetric .symmetric = .ok .symmetric)
    ∧ (SimpleExt.mul .symmetric .symmetric = .ok .symmetric)
    ∧ (SimpleExt.div .symmetric .symmetric = .ok .symmetric)
    ∧ (SimpleExt.add .reflect .reflect = .ok .reflect)
    ∧ (SimpleExt.sub .reflect .reflect = .ok .reflect)
    ∧ (SimpleExt.mul .reflect .reflect = .ok .reflect)
    ∧ (SimpleExt.div .reflect .reflect = .ok .reflect) := by
  refine ⟨rfl, rfl, rfl, rfl, rfl, rfl, rfl, rfl, rfl, rfl, rfl, rfl, rfl, rfl, rfl, rfl⟩

/-- Claim C6: evaluating `Mesh.scaled` on any mesh fails before any scaled
mesh can be returned.  The first legacy cache attribute the body reads,
`_center`, is neither a field of the frozen `Mesh` dataclass nor any property
or method defined in the class, so the read raises `AttributeError`; moreover
the final `Mesh(...)` call of `scaled` passes 15 positional arguments to a
constructor accepting 7, so the claimed volume-rescaling result is
unreachable. -/
theorem scaled_crashes_eval :
    scaledFirstFailure = .error (.attributeError "_center")
    ∧ meshAttributes.contains "_center" = false
    ∧ meshConstructorParamCount < scaledConstructorArgCount := by
  refine ⟨rfl, rfl, by decide⟩

/-- Claim C4 counterexample: with every corner signed distance equal to 10
and margin `min_size = 1`, every vertex's signed distance exceeds the margin,
so under the claim's reading of "blocked" the cell would be obstacle-occupied;
the code instead marks exactly these vertices as active (free) and keeps the
cell. -/
theorem blocked_sign_counterexample :
    obsMaskCell [[10, 10], [10, 10]] 1 0 0 = false
    ∧ claimOccupiedCell [[10, 10], [10, 10]] 1 0 0 = true := by
  refine ⟨by decide, by decide⟩

/-- Claim C4 (amended): with `min_size = min_cell_dimension * max_squish`, a
grid vertex is blocked exactly when the obstacle's approximate signed distance
at that vertex does NOT exceed `min_size` (the code's active mask is
`signed_distance > min_size`), and a cell is marked obstacle-occupied exactly
when all four of its corner vertices are blocked. -/
theorem occupied_iff_all_corners_within_margin
    (dx : List ℚ) (ms : ℚ) (sdg : List (List ℚ)) (i j : Nat) :
    obsMaskCell sdg (buildMeshMinSize dx ms) i j = true ↔
      ((sdg.getD i []).getD j 0 ≤ buildMeshMinSize dx ms
        ∧ (sdg.getD i []).getD (j + 1) 0 ≤ buildMeshMinSize dx ms
        ∧ (sdg.getD (i + 1) []).getD j 0 ≤ buildMeshMinSize dx ms
        ∧ (sdg.getD (i + 1) []).getD (j + 1) 0 ≤ buildMeshMinSize dx ms) := by
  simp only [obsMaskCell, activeMaskVert, beq_iff_eq, Nat.add_eq_zero,
    Bool.toNat_eq_zero, decide_eq_false_iff_not, not_lt, and_assoc]

/-- Claim C7: loading the archive written by `save_tri_mesh` from a compact
mesh with no extra data reconstructs the vertex coordinates, the face index
rows and all recorded dimension names exactly. -/
theorem tri_mesh_roundtrip (m : TriMeshData)
    (h : m.axisNames.length = 2 ∨ m.axisNames.length = 3) :
    ∃ rank, loadTriMesh (saveTriMesh m) = .ok (m, rank) := by
  rcases h with h | h
  · exact ⟨2, by simp only [loadTriMesh, saveTriMesh, inferElementRank, h]; rfl⟩
  · exact ⟨if minVertexCount m.faceIndices ≤ 4 then 2 else 3, by
      simp only [loadTriMesh, saveTriMesh, inferElementRank, h]; rfl⟩

/-- Concrete instantiation of `tri_mesh_roundtrip` on a one-triangle mesh. -/
theorem tri_mesh_roundtrip_witness :
    (["x", "y"].length = 2 ∨ ["x", "y"].length = 3)
    ∧ ∃ rank,
        loadTriMesh (saveTriMesh ⟨"cells", "vertices", ["x", "y"],
          [[0, 0], [1, 0], [0, 1]], [[0, 1, 2]]⟩)
          = .ok (⟨"cells", "vertices", ["x", "y"],
              [[0, 0], [1, 0], [0, 1]], [[0, 1, 2]]⟩, rank) :=
  ⟨Or.inl rfl,
    tri_mesh_roundtrip
      ⟨"cells", "vertices", ["x", "y"], [[0, 0], [1, 0], [0, 1]], [[0, 1, 2]]⟩
      (Or.inl rfl)⟩

/-- Claim C9: `Mesh.__getitem__` fails (assertion, an invalid-input failure)
whenever the slicing dict addresses a vertex-list spatial dimension of
`elements` or the vertex instance dimension; any slicing dict disjoint from
both succeeds and the result keeps the element instance dimension and the
`vector` channel dimension. -/
theorem mesh_getitem_spec (m : MeshDims) (keys : List String)
    (hc : m.cellDim ∈ m.dims) (hv : "vector" ∈ m.dims) :
    ((∃ d ∈ keys, d ∈ m.vertexListDims) ∨ m.vertexDim ∈ keys →
      meshGetitem m keys = .error .assertionError)
    ∧ ((∀ d ∈ keys, d ∉ m.vertexListDims) → m.vertexDim ∉ keys →
      ∃ r, meshGetitem m keys = .ok r
        ∧ r.cellDim ∈ r.dims ∧ "vector" ∈ r.dims
        ∧ r.cellDim = m.cellDim ∧ r.vertexDim = m.vertexDim) := by
  constructor
  · rintro (⟨d, hdk, hdv⟩ | hvk)
    · unfold meshGetitem
      rw [if_pos ⟨d, hdv, hdk⟩]
    · by_cases h1 : ∃ d ∈ m.vertexListDims, d ∈ keys
      · unfold meshGetitem
        rw [if_pos h1]
      · unfold meshGetitem
        rw [if_neg h1, if_pos hvk]
  · intro hdisj hvk
    have h1 : ¬ ∃ d ∈ m.vertexListDims, d ∈ keys := by
      rintro ⟨d, hdv, hdk⟩
      exact hdisj d hdk hdv
    have heq : meshGetitem m keys = .ok { m with dims := m.dims.filter (fun d => decide (d ∉ keys) || decide (d = m.cellDim) || decide (d = "vector")) } := by
      unfold meshGetitem
      rw [if_neg h1, if_neg hvk]
    refine ⟨_, heq, ?_, ?_, rfl, rfl⟩
    · exact List.mem_filter.2 ⟨hc, by simp⟩
    · exact List.mem_filter.2 ⟨hv, by simp⟩

/-- Concrete instantiation of `mesh_getitem_spec`: slicing a batch dimension
succeeds and keeps the element and vector dimensions. -/
theorem mesh_getitem_spec_witness :
    ("cells" ∈ ["b", "cells", "vector"] ∧ "vector" ∈ ["b", "cells", "vector"])
    ∧ ((∃ d ∈ ["b"], d ∈ (["vertex_index"] : List String)) ∨ "vertices" ∈ ["b"] →
        meshGetitem ⟨"cells", ["vertex_index"], "vertices", ["b", "cells", "vector"]⟩ ["b"]
          = .error .assertionError)
    ∧ ((∀ d ∈ ["b"], d ∉ (["vertex_index"] : List String)) → "vertices" ∉ ["b"] →
        ∃ r, meshGetitem ⟨"cells", ["vertex_index"], "vertices", ["b", "cells", "vector"]⟩ ["b"]
          = .ok r ∧ r.cellDim ∈ r.dims ∧ "vector" ∈ r.dims
          ∧ r.cellDim = "cells" ∧ r.vertexDim = "vertices") :=
  ⟨⟨by decide, by decide⟩,
    (mesh_getitem_spec ⟨"cells", ["vertex_index"], "vertices", ["b", "cells", "vector"]⟩
      ["b"] (by decide) (by decide)).1,
    (mesh_getitem_spec ⟨"cells", ["vertex_index"], "vertices", ["b", "cells", "vector"]⟩
      ["b"] (by decide) (by decide)).2⟩

/-- Helper: a failing element makes the whole sequential map fail. -/
theorem mapME_not_ok_of_mem (f : α → Except PyErr β) {l : List α} {x : α}
    (hx : x ∈ l) (hfx : exOk (f x) = false) : exOk (mapME f l) = false := by
  induction l with
  | nil => cases hx
  | cons a t ih =>
    rcases List.mem_cons.1 hx with rfl | hxt
    · cases hfa : f x with
      | error e => simp [mapME, hfa, exOk]
      | ok b => rw [hfa] at hfx; exact absurd hfx (by simp [exOk])
    · cases hfa : f a with
      | error e => simp [mapME, hfa, exOk]
      | ok b =>
        have h2 := ih hxt
        cases hml : mapME f t with
        | error e => simp [mapME, hfa, hml, exOk]
        | ok bs => rw [hml] at h2; exact absurd h2 (by simp [exOk])

/-- Helper: the sequential map is determined by the function's restriction to
the list. -/
theorem mapME_congr {f g : α → Except PyErr β} {l : List α}
    (h : ∀ x ∈ l, f x = g x) : mapME f l = mapME g l := by
  induction l with
  | nil => rfl
  | cons a t ih =>
    have h1 : f a = g a := h a (List.mem_cons_self a t)
    have h2 : mapME f t = mapME g t := ih (fun x hx => h x (List.mem_cons_of_mem _ hx))
    simp only [mapME, h1, h2]

/-- Helper: a member of the left list appears in the element-wise zip when the
lengths agree. -/
theorem mem_zip_left {l₁ : List α} {l₂ : List β} {a : α} (ha : a ∈ l₁)
    (h : l₁.length = l₂.length) : ∃ b, (a, b) ∈ l₁.zip l₂ := by
  induction l₁ generalizing l₂ with
  | nil => cases ha
  | cons x t ih =>
    cases l₂ with
    | nil => simp at h
    | cons y t2 =>
      rcases List.mem_cons.1 ha with rfl | hat
      · exact ⟨y, by simp⟩
      · rcases ih hat (by simpa using h) with ⟨b, hb⟩
        exact ⟨b, List.mem_cons_of_mem _ hb⟩

/-- Helper: lookup misses exactly the axis names outside the per-axis map. -/
theorem lookup_eq_none_of_not_mem {m : MixedExt} {n : String} (h : n ∉ m.keys) :
    m.lookup n = none := by
  unfold MixedExt.lookup
  rw [List.find?_eq_none.2]
  · rfl
  · intro x hx
    simp only [beq_iff_eq]
    intro hxn
    exact h (List.mem_map.2 ⟨x, hx, hxn⟩)

/-- Helper: lookup finds a pair for every covered axis name. -/
theorem lookup_isSome_of_mem {m : MixedExt} {n : String} (h : n ∈ m.keys) :
    ∃ pair, m.lookup n = some pair := by
  induction m with
  | nil => cases h
  | cons p t ih =>
    by_cases hp : (p.1 == n) = true
    · refine ⟨p.2, ?_⟩
      simp [MixedExt.lookup, List.find?, hp]
    · have h2 : n ∈ MixedExt.keys t := by
        rcases List.mem_cons.1 h with h | h
        · exact absurd (by simp [h]) hp
        · exact h
      rcases ih h2 with ⟨pair, hpair⟩
      refine ⟨pair, ?_⟩
      have hgoal : MixedExt.lookup (p :: t) n = MixedExt.lookup t n := by
        simp [MixedExt.lookup, List.find?, hp]
      rw [hgoal]
      exact hpair

/-- Claim C10: `MixedExtrapolation.transform_coordinates` requires its
per-axis policy map to cover exactly the spatial dimensions of the queried
shape and the unstacked coordinate components: when the axis set does not
match (or the counts differ) the call fails (assertion or KeyError); under
exact coverage it succeeds with every axis transformed by its own
lower/upper policy, the missing-axis branch never being consulted. -/
theorem mixed_transform_coordinates_spec (m : MixedExt)
    (dims : List (String × ℤ)) (coords : List ℤ) :
    ((m.keys).Nodup → (dims.map Prod.fst).Nodup →
      (m.keys).toFinset ≠ (dims.map Prod.fst).toFinset →
      exOk (mixedTransformCoordinates m dims coords) = false)
    ∧ (m.length = dims.length → dims.length = coords.length →
      (∀ n ∈ dims.map Prod.fst, n ∈ m.keys) →
      mixedTransformCoordinates m dims coords
        = mapME (fun p => axisTransform ((m.lookup p.1.1).getD (.const 0, .const 0))
            p.2 p.1.2) (dims.zip coords)) := by
  constructor
  · intro hm hd hne
    by_cases hc : m.length = dims.length ∧ dims.length = coords.length
    · unfold mixedTransformCoordinates
      rw [if_pos hc]
      have hex : ∃ n ∈ dims.map Prod.fst, n ∉ m.keys := by
        by_contra hall
        push_neg at hall
        have hsub : (dims.map Prod.fst).toFinset ⊆ (m.keys).toFinset := by
          intro n hn
          rw [List.mem_toFinset] at hn ⊢
          exact hall n hn
        have hcard1 : (m.keys).toFinset.card = m.length := by
          rw [List.toFinset_card_of_nodup hm]
          simp [MixedExt.keys]
        have hcard2 : (dims.map Prod.fst).toFinset.card = dims.length := by
          rw [List.toFinset_card_of_nodup hd]
          simp
        have heq : (dims.map Prod.fst).toFinset = (m.keys).toFinset :=
          Finset.eq_of_subset_of_card_le hsub
            (by rw [hcard1, hcard2]; exact le_of_eq hc.1)
        exact hne heq.symm
      rcases hex with ⟨n, hn, hnk⟩
      rcases List.mem_map.1 hn with ⟨pr, hpr, rfl⟩
      rcases mem_zip_left hpr hc.2 with ⟨c, hzc⟩
      refine mapME_not_ok_of_mem _ hzc ?_
      rw [lookup_eq_none_of_not_mem hnk]
      rfl
    · unfold mixedTransformCoordinates
      rw [if_neg hc]
      rfl
  · intro h1 h2 hcov
    unfold mixedTransformCoordinates
    rw [if_pos ⟨h1, h2⟩]
    apply mapME_congr
    rintro ⟨pd, c⟩ hx
    have hmem : pd ∈ dims := (List.of_mem_zip hx).1
    have hk : pd.1 ∈ m.keys := hcov pd.1 (List.mem_map.2 ⟨pd, hmem, rfl⟩)
    rcases lookup_isSome_of_mem hk with ⟨pair, hpair⟩
    simp [hpair]

/-- Concrete instantiation of `mixed_transform_coordinates_spec`: an exactly
covered axis is transformed by its own (periodic) policy, and a mislabeled
axis map makes the call fail. -/
theorem mixed_transform_coordinates_witness :
    mixedTransformCoordinates [("x", (.periodic, .periodic))] [("x", 4)] [6] = .ok [2]
    ∧ exOk (mixedTransformCoordinates [("y", (.periodic, .periodic))] [("x", 4)] [6])
        = false := by
  constructor
  · have h := (mixed_transform_coordinates_spec
      [("x", (.periodic, .periodic))] [("x", 4)] [6]).2 rfl rfl (by decide)
    rw [h]
    rfl
  · exact (mixed_transform_coordinates_spec
      [("y", (.periodic, .periodic))] [("x", 4)] [6]).1 (by decide) (by decide) (by decide)

/-- Helper: selecting the filtered component names from a location with
distinct names recovers the filtered location itself. -/
theorem locNames_filter_map (loc : Loc) (q : String → Bool)
    (hnd : (locNames loc).Nodup) :
    ((locNames loc).filter q).map (fun n => (n, (locGet loc n).getD 0))
      = loc.filter (fun p => q p.1) := by
  induction loc with
  | nil => rfl
  | cons p rest ih =>
    have hnames : locNames (p :: rest) = p.1 :: locNames rest := rfl
    rw [hnames] at hnd ⊢
    have hnp : p.1 ∉ locNames rest := (List.nodup_cons.1 hnd).1
    have hnd2 : (locNames rest).Nodup := (List.nodup_cons.1 hnd).2
    have htail : ∀ n ∈ (locNames rest).filter q,
        (n, (locGet (p :: rest) n).getD 0) = (n, (locGet rest n).getD 0) := by
      intro n hn
      have hnmem : n ∈ locNames rest := List.mem_of_mem_filter hn
      have hfalse : (p.1 == n) = false := by
        simp only [beq_eq_false_iff_ne, ne_eq]
        intro h
        exact hnp (h ▸ hnmem)
      have hskip : locGet (p :: rest) n = locGet rest n := by
        simp [locGet, List.find?, hfalse]
      rw [hskip]
    by_cases hq : q p.1 = true
    · have hg1 : List.filter q (p.1 :: locNames rest)
          = p.1 :: List.filter q (locNames rest) := by
        simp [List.filter, hq]
      have hg2 : List.filter (fun pr : String × ℚ => q pr.1) (p :: rest)
          = p :: List.filter (fun pr : String × ℚ => q pr.1) rest := by
        simp [List.filter, hq]
      have hhead : locGet (p :: rest) p.1 = some p.2 := by
        simp [locGet, List.find?]
      rw [hg1, hg2, List.map_cons, hhead, List.map_congr_left htail, ih hnd2]
      rfl
    · have hqf : q p.1 = false := by simpa using hq
      have hg1 : List.filter q (p.1 :: locNames rest)
          = List.filter q (locNames rest) := by
        simp [List.filter, hqf]
      have hg2 : List.filter (fun pr : String × ℚ => q pr.1) (p :: rest)
          = List.filter (fun pr : String × ℚ => q pr.1) rest := by
        simp [List.filter, hqf]
      rw [hg1, hg2, List.map_congr_left htail]
      exact ih hnd2

/-- Claim C5: `embed` of a 2D box with a new axis `z` yields a geometry whose
containment answer at any three-component query equals the original box's
answer at the query projected onto the box's two axes, independently of the
`z` component; and in general `_EmbeddedGeometry.lies_inside` and
`approximate_signed_distance` down-project the query to the components the
base geometry knows and delegate to it. -/
theorem embed_liesInside_spec :
    (∀ x0 x1 y0 y1 qx qy qz : ℚ,
      GeomM.liesInside (embed (.boxG [("x", some (x0, x1)), ("y", some (y0, y1))]) ["z"])
          [("x", qx), ("y", qy), ("z", qz)]
        = boxLiesInside [("x", some (x0, x1)), ("y", some (y0, y1))] [("x", qx), ("y", qy)])
    ∧ (∀ (g : GeomCap) (axes : List String) (loc : Loc),
        (locNames loc).Nodup → locNames loc = axes →
        EmbeddedGeometry.downProject ⟨g, axes⟩ loc
            = loc.filter (fun p => decide (p.1 ∈ g.axes))
          ∧ EmbeddedGeometry.liesInside ⟨g, axes⟩ loc
              = g.liesInsideFn (loc.filter (fun p => decide (p.1 ∈ g.axes)))
          ∧ EmbeddedGeometry.signedDistance ⟨g, axes⟩ loc
              = g.signedDistanceFn (loc.filter (fun p => decide (p.1 ∈ g.axes)))) := by
  constructor
  · intro x0 x1 y0 y1 qx qy qz
    simp [embed, GeomM.liesInside, GeomM.vectorNames, boxAxes, unboundedBox,
      boxLiesInside, locGet, List.find?, List.all]
  · intro g axes loc hnd hax
    have hdp : EmbeddedGeometry.downProject ⟨g, axes⟩ loc
        = loc.filter (fun p => decide (p.1 ∈ g.axes)) := by
      show ((locNames loc).filter
          (fun n => decide (n ∉ axes.filter (fun d => decide (d ∉ g.axes))))).map
            (fun n => (n, (locGet loc n).getD 0))
        = loc.filter (fun p => decide (p.1 ∈ g.axes))
      have hfeq : (locNames loc).filter
            (fun n => decide (n ∉ axes.filter (fun d => decide (d ∉ g.axes))))
          = (locNames loc).filter (fun n => decide (n ∈ g.axes)) := by
        apply List.filter_congr
        intro n hn
        have hna : n ∈ axes := hax ▸ hn
        by_cases hg : n ∈ g.axes
        · simp [List.mem_filter, hna, hg]
        · simp [List.mem_filter, hna, hg]
      rw [hfeq]
      exact locNames_filter_map loc _ hnd
    exact ⟨hdp, by unfold EmbeddedGeometry.liesInside; rw [hdp],
      by unfold EmbeddedGeometry.signedDistance; rw [hdp]⟩

/-- Concrete instantiation of `embed_liesInside_spec`: a one-axis base
geometry wrapped with an extra `z` axis answers containment through the
down-projected query. -/
theorem embed_liesInside_witness :
    ((locNames [("x", (5 : ℚ)), ("z", 7)]).Nodup ∧ locNames [("x", (5 : ℚ)), ("z", 7)] = ["x", "z"])
    ∧ EmbeddedGeometry.liesInside
        ⟨⟨["x"], fun l => decide ((locGet l "x").getD 0 ≤ 6), fun _ => 0⟩, ["x", "z"]⟩
        [("x", 5), ("z", 7)]
      = decide ((locGet ([("x", (5 : ℚ)), ("z", 7)].filter
          (fun p => decide (p.1 ∈ (["x"] : List String)))) "x").getD 0 ≤ 6) :=
  ⟨⟨by decide, by decide⟩,
    ((embed_liesInside_spec.2 ⟨["x"], fun l => decide ((locGet l "x").getD 0 ≤ 6), fun _ => 0⟩
      ["x", "z"] [("x", 5), ("z", 7)] (by decide) (by decide)).2).1⟩

/-- Helper: membership in rank insertion. -/
theorem mem_insertByRank {a x : SimpleExt} {l : List SimpleExt} :
    x ∈ insertByRank a l ↔ x = a ∨ x ∈ l := by
  induction l with
  | nil => simp [insertByRank]
  | cons b t ih =>
    unfold insertByRank
    by_cases h : a.padRank ≤ b.padRank
    · rw [if_pos h]
      simp
    · rw [if_neg h]
      simp [ih]
      tauto

/-- Helper: rank insertion preserves ascending sortedness. -/
theorem pairwise_insertByRank {a : SimpleExt} {l : List SimpleExt}
    (hl : l.Pairwise (fun x y => x.padRank ≤ y.padRank)) :
    (insertByRank a l).Pairwise (fun x y => x.padRank ≤ y.padRank) := by
  induction l with
  | nil => simp [insertByRank]
  | cons b t ih =>
    rcases List.pairwise_cons.1 hl with ⟨hb, ht⟩
    unfold insertByRank
    by_cases h : a.padRank ≤ b.padRank
    · rw [if_pos h]
      refine List.pairwise_cons.2 ⟨?_, hl⟩
      intro x hx
      rcases List.mem_cons.1 hx with rfl | hxt
      · exact h
      · exact le_trans h (hb x hxt)
    · rw [if_neg h]
      refine List.pairwise_cons.2 ⟨?_, ih ht⟩
      intro x hx
      rcases mem_insertByRank.1 hx with rfl | hxt
      · exact le_of_not_le h
      · exact hb x hxt

/-- Helper: the insertion sort by `pad_rank` sorts ascending. -/
theorem sortByRank_pairwise (l : List SimpleExt) :
    (sortByRank l).Pairwise (fun x y => x.padRank ≤ y.padRank) := by
  induction l with
  | nil => simp [sortByRank]
  | cons a t ih => exact pairwise_insertByRank ih

/-- Helper: rank insertion is a permutation of consing. -/
theorem insertByRank_perm (a : SimpleExt) (l : List SimpleExt) :
    List.Perm (insertByRank a l) (a :: l) := by
  induction l with
  | nil => exact List.Perm.refl _
  | cons b t ih =>
    unfold insertByRank
    by_cases h : a.padRank ≤ b.padRank
    · rw [if_pos h]
    · rw [if_neg h]
      exact (List.Perm.cons b ih).trans (List.Perm.swap a b t)

/-- Helper: sorting by rank permutes the list. -/
theorem sortByRank_perm (l : List SimpleExt) : List.Perm (sortByRank l) l := by
  induction l with
  | nil => exact List.Perm.refl _
  | cons a t ih => exact (insertByRank_perm a (sortByRank t)).trans (List.Perm.cons a ih)

/-- Helper: boolean equality of rationals is symmetric. -/
theorem ratBeq_comm (v w : ℚ) : (v == w) = (w == v) := by
  by_cases h : v = w
  · subst h
    rfl
  · have hvw : (v == w) = false := beq_eq_false_iff_ne.2 h
    have hwv : (w == v) = false := beq_eq_false_iff_ne.2 (fun hh => h hh.symm)
    rw [hvw, hwv]

/-- Helper: the source `__eq__` on simple extrapolations is symmetric. -/
theorem extEq_symm (a b : SimpleExt) : a.extEq b = b.extEq a := by
  cases a <;> cases b <;> simp only [SimpleExt.extEq] <;> try rfl
  all_goals exact ratBeq_comm _ _

/-- Helper: deduplicated elements come from the original list. -/
theorem mem_dedupExt {l : List SimpleExt} {x : SimpleExt} (h : x ∈ dedupExt l) :
    x ∈ l := by
  induction l with
  | nil => cases h
  | cons a t ih =>
    simp only [dedupExt] at h
    rcases List.mem_cons.1 h with rfl | h2
    · exact List.mem_cons_self _ _
    · exact List.mem_cons_of_mem _ (ih (List.mem_of_mem_filter h2))

/-- Helper: deduplication leaves pairwise `__eq__`-distinct policies. -/
theorem dedupExt_pairwise (l : List SimpleExt) :
    (dedupExt l).Pairwise (fun x y => x.extEq y = false) := by
  induction l with
  | nil => simp [dedupExt]
  | cons a t ih =>
    simp only [dedupExt]
    refine List.pairwise_cons.2 ⟨?_, List.Pairwise.filter _ ih⟩
    intro b hb
    have hbf := List.mem_filter.1 hb
    simpa using hbf.2

/-- Claim C3: `MixedExtrapolation.pad` applies the distinct member policies in
ascending `pad_rank` order, each policy receiving widths zeroed everywhere
except on the axis/side slots it occupies; consequently, on a two-axis example
mixing `PERIODIC` (on axis x) with `ConstantExtrapolation(9)` (on axis y), the
mixed pad's border values coincide with those produced by each policy's own
pad applied independently with only its owned widths. -/
theorem mixed_pad_order_ownership_example :
    (∀ m : MixedExt, (m.policySeq).Pairwise (fun a b => a.padRank ≤ b.padRank)
      ∧ (m.policySeq).Pairwise (fun a b => a.extEq b = false))
    ∧ (∀ (m : MixedExt) (e : SimpleExt) (widths : List (String × (Nat × Nat)))
        (ax : String) (w : Nat × Nat), (ax, w) ∈ extWidths m e widths →
        (w.1 ≠ 0 → (((m.lookup ax).getD (.const 0, .const 0)).1.extEq e) = true)
        ∧ (w.2 ≠ 0 → (((m.lookup ax).getD (.const 0, .const 0)).2.extEq e) = true))
    ∧ mixedPad [("x", (.periodic, .periodic)), ("y", (.const 9, .const 9))]
        [("x", (1, 1)), ("y", (1, 1))] [[1, 2], [3, 4]]
      = [[9, 3, 4, 9], [9, 1, 2, 9], [9, 3, 4, 9], [9, 1, 2, 9]]
    ∧ simplePad2 .periodic [("x", (1, 1)), ("y", (0, 0))] [[1, 2], [3, 4]]
      = [[3, 4], [1, 2], [3, 4], [1, 2]]
    ∧ simplePad2 (.const 9) [("x", (0, 0)), ("y", (1, 1))] [[1, 2], [3, 4]]
      = [[9, 1, 2, 9], [9, 3, 4, 9]]
    ∧ (((mixedPad [("x", (.periodic, .periodic)), ("y", (.const 9, .const 9))]
          [("x", (1, 1)), ("y", (1, 1))] [[1, 2], [3, 4]]).headD []).drop 1).take 2
      = (simplePad2 .periodic [("x", (1, 1)), ("y", (0, 0))] [[1, 2], [3, 4]]).headD []
    ∧ (((mixedPad [("x", (.periodic, .periodic)), ("y", (.const 9, .const 9))]
          [("x", (1, 1)), ("y", (1, 1))] [[1, 2], [3, 4]]).getLastD []).drop 1).take 2
      = (simplePad2 .periodic [("x", (1, 1)), ("y", (0, 0))] [[1, 2], [3, 4]]).getLastD []
    ∧ ((mixedPad [("x", (.periodic, .periodic)), ("y", (.const 9, .const 9))]
          [("x", (1, 1)), ("y", (1, 1))] [[1, 2], [3, 4]]).getD 1 []).headD 0
      = ((simplePad2 (.const 9) [("x", (0, 0)), ("y", (1, 1))] [[1, 2], [3, 4]]).getD 0 []).headD 0
    ∧ ((mixedPad [("x", (.periodic, .periodic)), ("y", (.const 9, .const 9))]
          [("x", (1, 1)), ("y", (1, 1))] [[1, 2], [3, 4]]).getD 2 []).getLastD 0
      = ((simplePad2 (.const 9) [("x", (0, 0)), ("y", (1, 1))] [[1, 2], [3, 4]]).getD 1 []).getLastD 0 := by
  refine ⟨?_, ?_, by decide, by decide, by decide, by decide, by decide, by decide, by decide⟩
  · intro m
    refine ⟨sortByRank_pairwise _, ?_⟩
    exact (List.Perm.pairwise_iff
      (fun {x y} h => by rw [extEq_symm]; exact h) (sortByRank_perm _)).2
      (dedupExt_pairwise _)
  · intro m e widths ax w hmem
    rcases List.mem_map.1 hmem with ⟨p, hp, heq⟩
    have hax : p.1 = ax := congrArg Prod.fst heq
    have hw : w = ((if ((m.lookup p.1).getD (.const 0, .const 0)).1.extEq e then p.2.1 else 0),
        (if ((m.lookup p.1).getD (.const 0, .const 0)).2.extEq e then p.2.2 else 0)) :=
      (congrArg Prod.snd heq).symm
    subst hax
    constructor
    · intro h1
      by_cases hc : (((m.lookup p.1).getD (.const 0, .const 0)).1.extEq e) = true
      · exact hc
      · rw [hw] at h1
        simp [hc] at h1
    · intro h2
      by_cases hc : (((m.lookup p.1).getD (.const 0, .const 0)).2.extEq e) = true
      · exact hc
      · rw [hw] at h2
        simp [hc] at h2

/-- Concrete instantiation of `mixed_pad_order_ownership_example`: on the
one-axis map assigning periodic to axis x, a nonzero masked width implies the
slot is owned by the periodic policy. -/
theorem mixed_pad_order_ownership_example_witness :
    ("x", ((1 : Nat), (1 : Nat)))
        ∈ extWidths [("x", (.periodic, .periodic))] .periodic [("x", (1, 1))]
    ∧ ((1 : Nat) ≠ 0 →
        ((MixedExt.lookup [("x", (.periodic, .periodic))] "x").getD
          (.const 0, .const 0)).1.extEq .periodic = true) :=
  ⟨by decide,
    (mixed_pad_order_ownership_example.2.1 [("x", (.periodic, .periodic))] .periodic
      [("x", (1, 1))] "x" (1, 1) (by decide)).1⟩

end PhiFlow
